import Mathlib

/-!
Shallow embedding of `src/ws_ohlc_simulator.js` (a socket.io OHLC market-data
simulator) and verification of its specification claims.

Modelling conventions:
* JavaScript numbers are modelled as rationals (`ℚ`); integral counters as `ℤ`/`ℕ`.
* `Number.prototype.toFixed(4)` followed by unary `+` is modelled by `round4`
  (round half towards positive infinity at 4 decimal places, which is the
  ECMAScript "pick the larger n" rule).
* `Date.now()` values are epoch milliseconds (`ℕ`); `Math.random()` draws are
  passed in as explicit rational parameters in `[0,1)`.
* The `instruments` dictionary is modelled as a list of per-symbol states in
  seed order; key lookup is membership in the key list.
-/

namespace WsOhlc

/-- Broadcast period of the simulation loop, in milliseconds (source line 14). -/
def BROADCAST_INTERVAL_MS : ℕ := 800

/-- Per-connection outbound message cap per rate window (source line 15). -/
def MAX_RATE_PER_SECOND : ℕ := 50

/-- Fixed IST offset from UTC, in minutes (source line 16). -/
def IST_OFFSET_MINUTES : ℕ := 330

/-- Model of `+x.toFixed(4)`: round to 4 decimal places, ties towards the
larger candidate, exactly as the ECMAScript `toFixed` specification picks
the larger `n` on ties. -/
def round4 (x : ℚ) : ℚ := (⌊x * 10000 + 1 / 2⌋ : ℚ) / 10000

/-- One row of the `BASE_OHLC` seed table (source lines 21-42).
The JS field `open` is a Lean keyword, hence `open_`. -/
structure BaseRow where
  symbol : String
  open_ : ℚ
  high : ℚ
  low : ℚ
  close : ℚ
  volume : ℤ
deriving DecidableEq, Repr

/-- The `BASE_OHLC` seed table (source lines 21-42), in source order. -/
def BASE_OHLC : List BaseRow :=
  [⟨"AAPL", 228.5, 232.4, 227.9, 231.85, 58200000⟩,
   ⟨"TSLA", 405.2, 410.1, 404.1, 409.35, 23400000⟩,
   ⟨"MSFT", 167.8, 170.25, 167.1, 169.95, 26800000⟩,
   ⟨"GOOG", 148.5, 152.3, 147.9, 151.75, 51200000⟩,
   ⟨"AMZN", 1250.0, 1286.4, 1245.5, 1280.75, 312500000⟩,
   ⟨"NVDA", 427.4, 432.25, 426.1, 431.1, 3900000⟩,
   ⟨"META", 172.8, 175.75, 172.2, 175.1, 12800000⟩,
   ⟨"NFLX", 244.1, 248.55, 243.2, 247.6, 7800000⟩,
   ⟨"JPM", 410.2, 417.4, 409.8, 416.25, 3600000⟩,
   ⟨"BAC", 32.7, 33.25, 32.4, 33.05, 42600000⟩,
   ⟨"INTC", 254.2, 261.8, 253.1, 259.7, 102000000⟩,
   ⟨"ORCL", 160.3, 163.6, 159.85, 162.75, 13200000⟩,
   ⟨"IBM", 147.4, 149.8, 146.9, 149.1, 7500000⟩,
   ⟨"CSCO", 58.4, 59.65, 58.1, 59.2, 14500000⟩,
   ⟨"SAP", 168.8, 171.9, 168.2, 171.25, 5850000⟩,
   ⟨"ADBE", 155.4, 157.85, 155.0, 157.1, 9200000⟩,
   ⟨"UBER", 525.1, 531.4, 523.8, 530.2, 3580000⟩,
   ⟨"LYFT", 103.7, 106.4, 103.1, 105.85, 11400000⟩,
   ⟨"SNAP", 98.2, 100.85, 97.8, 100.25, 8750000⟩,
   ⟨"TWTR", 595.4, 612.1, 594.3, 608.5, 5250000⟩]

/-- In-memory per-instrument state (source lines 49-58). -/
structure InstrumentState where
  symbol : String
  date : String
  open_price : ℚ
  high_price : ℚ
  low_price : ℚ
  close_price : ℚ
  volume : ℤ
  ts : String
deriving DecidableEq, Repr

/-- Initialization of one instrument from its seed row (source lines 47-59). -/
def initInstrument (todayDate initTs : String) (b : BaseRow) : InstrumentState :=
  { symbol := b.symbol
    date := todayDate
    open_price := b.open_
    high_price := b.high
    low_price := b.low
    close_price := b.close
    volume := b.volume
    ts := initTs }

/-- The `instruments` table right after startup (source lines 44-59), given the
startup date string and timestamp string. -/
def instrumentsInit (todayDate initTs : String) : List InstrumentState :=
  BASE_OHLC.map (initInstrument todayDate initTs)

/-- `Object.keys(instruments)`: the known symbol universe, in seed order. -/
def instrumentSymbols : List String := BASE_OHLC.map (·.symbol)

/-- `randPct(maxPct)` (source lines 64-66), with the `Math.random()` draw `r`
passed explicitly: `(r * 2 - 1) * maxPct`. -/
def randPct (r maxPct : ℚ) : ℚ := (r * 2 - 1) * maxPct

/-- The volume increment `Math.floor(5000 + Math.random() * 20000)` of source
line 74, with the `Math.random()` draw `r` passed explicitly. -/
def volInc (r : ℚ) : ℤ := ⌊5000 + r * 20000⌋

/-- The tick count `3 + Math.floor(Math.random() * 4)` of source line 202,
with the `Math.random()` draw `r` passed explicitly. -/
def randCount (r : ℚ) : ℕ := 3 + (⌊r * 4⌋).toNat

/-- `simulateTick(state)` (source lines 68-77): `r1` is the `Math.random()`
draw inside `randPct(0.004)`, `r2` the draw for the volume increment, `ts`
the `new Date().toISOString()` generation instant. The returned value is the
post-mutation state (the JS function mutates in place and returns a copy). -/
def simulateTick (r1 r2 : ℚ) (ts : String) (s : InstrumentState) : InstrumentState :=
  let pct := randPct r1 0.004
  let newPrice := round4 (s.close_price * (1 + pct))
  { s with
    close_price := newPrice
    high_price := if s.high_price < newPrice then newPrice else s.high_price
    low_price := if newPrice < s.low_price then newPrice else s.low_price
    volume := s.volume + volInc r2
    ts := ts }

/-- Per-connection rate-limiter state (`socket.meta`, source line 155). -/
structure RateMeta where
  lastWindowStart : ℕ
  sentInWindow : ℕ
deriving DecidableEq, Repr

/-- The window-reset prefix of `allowSendRate` (source lines 81-84): if
`lastWindowStart` is falsy or more than 1000ms old, start a fresh window at
`now`. Subtraction is `ℕ`-truncated, matching the JS comparison
`now - lastWindowStart > 1000` for a monotone clock. -/
def windowRolled (now : ℕ) (m : RateMeta) : RateMeta :=
  if m.lastWindowStart = 0 ∨ 1000 < now - m.lastWindowStart then ⟨now, 0⟩ else m

/-- `allowSendRate(meta)` (source lines 79-88) at clock reading `now`:
returns the admission decision and the updated meta. -/
def allowSendRate (now : ℕ) (m : RateMeta) : Bool × RateMeta :=
  let m1 := windowRolled now m
  if MAX_RATE_PER_SECOND ≤ m1.sentInWindow then (false, m1)
  else (true, ⟨m1.lastWindowStart, m1.sentInWindow + 1⟩)

/-- Minutes-since-midnight of the current instant shifted to IST
(source lines 90-99). `nowInIST` adds the server timezone offset `o` to the
epoch value and the local `getHours`/`getMinutes` display subtracts the same
`o` again, so the displayed instant is `e + IST_OFFSET_MINUTES * 60000`
regardless of the server timezone; `getHours() * 60 + getMinutes()` of an
epoch value `x` is `(x / 3600000 % 24) * 60 + (x / 60000 % 60)`. -/
def istMinutesOfDay (e : ℕ) : ℕ :=
  let x := e + IST_OFFSET_MINUTES * 60000
  (x / 3600000 % 24) * 60 + (x / 60000 % 60)

/-- `isMarketOpenIST()` (source lines 96-100) at epoch milliseconds `e`. -/
def isMarketOpenIST (e : ℕ) : Bool :=
  let minutes := istMinutesOfDay e
  decide (10 * 60 ≤ minutes ∧ minutes < 19 * 60)

/-- Outbound Quote message shape (source lines 107-119). The JS field `open`
is a Lean keyword, hence `open_`. -/
structure Quote where
  symbol : String
  last : ℚ
  open_ : ℚ
  high : ℚ
  low : ℚ
  volume : ℤ
  day_change : ℚ
  day_change_percent : ℚ
  event_ts : String
  currency : String
  source : String
deriving DecidableEq, Repr

/-- `formatQuote(state)` (source lines 102-120). The ternary
`state.open_price ? ... : 0` tests JS truthiness of the open price, i.e.
whether it is nonzero. -/
def formatQuote (s : InstrumentState) : Quote :=
  let last := s.close_price
  let change := round4 (last - s.open_price)
  let changePct := if s.open_price ≠ 0 then round4 (change / s.open_price * 100) else 0
  { symbol := s.symbol
    last := last
    open_ := s.open_price
    high := s.high_price
    low := s.low_price
    volume := s.volume
    day_change := change
    day_change_percent := changePct
    event_ts := s.ts
    currency := "USD"
    source := "simulator" }

/-- JavaScript values that can arrive as a subscribe/unsubscribe payload.
Array payloads are modelled as lists of strings (symbol names). -/
inductive JsVal where
  | vnull
  | vundef
  | vnum (n : ℚ)
  | vstr (s : String)
  | varr (xs : List String)
  | vobj
deriving DecidableEq, Repr

/-- JavaScript truthiness of a payload (`!symbols` tests the negation). -/
def jsTruthy : JsVal → Bool
  | .vnull => false
  | .vundef => false
  | .vnum n => decide (n ≠ 0)
  | .vstr s => decide (s ≠ "")
  | .varr _ => true
  | .vobj => true

/-- The JS test `symbols.length === 0`: true only for an empty string or an
empty array; `.length` is `undefined` on numbers and plain objects, and the
strict comparison with `0` is then false. -/
def jsLengthIsZero : JsVal → Bool
  | .vstr s => decide (s.length = 0)
  | .varr xs => decide (xs = [])
  | _ => false

/-- `Array.isArray(symbols)`. -/
def jsIsArray : JsVal → Bool
  | .varr _ => true
  | _ => false

/-- The `subscribe` handler (source lines 161-171) acting on a connection's
subscription set. It first runs `subs.clear()`, then: a falsy or length-zero
payload subscribes to the whole universe; an array payload subscribes to the
symbols that are keys of `instruments`; any other payload reaches
`symbols.filter` — which is `undefined` on non-arrays — and throws a
`TypeError` (modelled as `Except.error ()`), leaving the already-cleared set.
The previous set `_prev` is never consulted (wholesale replacement).
Returns the resulting subscription set and whether the handler completed. -/
def subscribeApply (_prev : List String) (p : JsVal) : List String × Except Unit Unit :=
  if jsTruthy p = false ∨ jsLengthIsZero p = true then (instrumentSymbols, .ok ())
  else
    match p with
    | .varr xs => (xs.filter (fun sym => instrumentSymbols.contains sym), .ok ())
    | _ => ([], .error ())

/-- The `unsubscribe` handler (source lines 174-178): a falsy or non-array
payload is a no-op; an array payload deletes each listed symbol from the set. -/
def unsubscribeApply (prev : List String) (p : JsVal) : List String :=
  if jsTruthy p = false ∨ jsIsArray p = false then prev
  else
    match p with
    | .varr xs => prev.filter (fun sym => !xs.contains sym)
    | _ => prev

/-- The per-cycle mutation of the instrument table (source lines 201-209):
every instrument whose symbol is in the selected set `sel` is advanced by
`simulateTick` (with its per-symbol random draws `rnd`), the rest are left
unchanged. -/
def tickStore (sel : List String) (rnd : String → ℚ × ℚ) (ts : String)
    (store : List InstrumentState) : List InstrumentState :=
  store.map fun s =>
    if sel.contains s.symbol then simulateTick (rnd s.symbol).1 (rnd s.symbol).2 ts s else s

/-- Iterated tick cycles applied to an instrument table. -/
def runTicks : List (List String × (String → ℚ × ℚ) × String) →
    List InstrumentState → List InstrumentState
  | [], store => store
  | c :: cs, store => runTicks cs (tickStore c.1 c.2.1 c.2.2 store)

/-- The `updates.filter(u => socket.meta.subs.has(u.symbol))` subset of the
batch relevant to one connection (source line 213). -/
def relevantFor (subs : List String) (updates : List InstrumentState) : List InstrumentState :=
  updates.filter (fun u => subs.contains u.symbol)

/-- The per-connection body of the broadcast loop (source lines 211-215):
one `allowSendRate` admission check; if denied, nothing is sent; if admitted,
one `update` Quote per relevant instrument of the batch. Returns the list of
emitted Quotes and the connection's rate meta afterwards. -/
def broadcastToConn (now : ℕ) (updates : List InstrumentState) (subs : List String)
    (meta : RateMeta) : List Quote × RateMeta :=
  let r := allowSendRate now meta
  if r.1 then ((relevantFor subs updates).map formatQuote, r.2) else ([], r.2)

/-- One scheduler cycle as seen by a single connection (source lines 194-218):
when the market gate is closed nothing is sent and the rate meta is untouched;
when open, the connection goes through `broadcastToConn`. -/
def openCycleSend (now : ℕ) (updates : List InstrumentState) (subs : List String)
    (meta : RateMeta) : List Quote × RateMeta :=
  if isMarketOpenIST now then broadcastToConn now updates subs meta else ([], meta)

/-- One entry of a per-connection broadcast trace: the cycle instant, the
number of `update` messages emitted to the connection in that cycle, and the
rate window (identified by its start) the admission check charged. -/
structure RunEntry where
  time : ℕ
  msgs : ℕ
  ws : ℕ
deriving DecidableEq, Repr

/-- Per-connection trace of a sequence of open broadcast cycles, each given as
(clock reading, tick batch). -/
def runEntries (subs : List String) (meta : RateMeta) :
    List (ℕ × List InstrumentState) → List RunEntry
  | [] => []
  | c :: cs =>
    let r := broadcastToConn c.1 c.2 subs meta
    ⟨c.1, r.1.length, r.2.lastWindowStart⟩ :: runEntries subs r.2 cs

/-- Outcomes of a sequence of `allowSendRate` checks at the given instants. -/
def checksRun (meta : RateMeta) : List ℕ → List Bool
  | [] => []
  | t :: ts =>
    let r := allowSendRate t meta
    r.1 :: checksRun r.2 ts

/-- The OHLC consistency invariant of the spec:
`low ≤ close ≤ high` and `low ≤ open ≤ high`. -/
def ohlcInvariant (s : InstrumentState) : Prop :=
  s.low_price ≤ s.close_price ∧ s.close_price ≤ s.high_price ∧
  s.low_price ≤ s.open_price ∧ s.open_price ≤ s.high_price

instance (s : InstrumentState) : Decidable (ohlcInvariant s) := by
  unfold ohlcInvariant; infer_instance

/-! Helper lemmas shared across claims. -/

theorem formatQuote_symbol (s : InstrumentState) : (formatQuote s).symbol = s.symbol := rfl

theorem formatQuote_last (s : InstrumentState) : (formatQuote s).last = s.close_price := rfl

theorem contains_iff_mem (l : List String) (a : String) : l.contains a = true ↔ a ∈ l := by
  simp

theorem round4_int_div (n : ℤ) : round4 ((n : ℚ) / 10000) = (n : ℚ) / 10000 := by
  unfold round4
  have h : (n : ℚ) / 10000 * 10000 = (n : ℚ) := by
    field_simp
  rw [h, Int.floor_int_add]
  norm_num

theorem simulateTick_preserves_inv (r1 r2 : ℚ) (ts : String) (s : InstrumentState)
    (h : ohlcInvariant s) : ohlcInvariant (simulateTick r1 r2 ts s) := by
  obtain ⟨h1, h2, h3, h4⟩ := h
  unfold ohlcInvariant simulateTick
  dsimp only
  split_ifs <;> refine ⟨?_, ?_, ?_, ?_⟩ <;> linarith

theorem initInstrument_inv (d t : String) (b : BaseRow) (hb : b ∈ BASE_OHLC) :
    ohlcInvariant (initInstrument d t b) := by
  fin_cases hb <;> refine ⟨?_, ?_, ?_, ?_⟩ <;> norm_num [initInstrument]

theorem tickStore_preserves_inv (sel : List String) (rnd : String → ℚ × ℚ) (ts : String)
    (store : List InstrumentState) (h : ∀ s ∈ store, ohlcInvariant s) :
    ∀ s ∈ tickStore sel rnd ts store, ohlcInvariant s := by
  intro s hs
  unfold tickStore at hs
  obtain ⟨u, hu, rfl⟩ := List.mem_map.mp hs
  split_ifs
  · exact simulateTick_preserves_inv _ _ _ _ (h u hu)
  · exact h u hu

theorem runTicks_preserves_inv (cycles : List (List String × (String → ℚ × ℚ) × String))
    (store : List InstrumentState) (h : ∀ s ∈ store, ohlcInvariant s) :
    ∀ s ∈ runTicks cycles store, ohlcInvariant s := by
  induction cycles generalizing store with
  | nil => exact h
  | cons c cs ih => exact ih _ (tickStore_preserves_inv c.1 c.2.1 c.2.2 store h)

/-! Claim theorems. -/

/-- C7: the market gate is a function of wall-clock time that returns open iff
the current instant converted to the fixed UTC+5:30 offset has
minutes-since-midnight in [600, 1140); concretely it is open at 12:00 IST
(epoch 23400000ms = 06:30 UTC) and closed at 09:00 IST (12600000ms) and at
20:00 IST (52200000ms). -/
theorem c7_market_gate :
    (∀ e : ℕ, isMarketOpenIST e = true ↔
      (600 ≤ (e / 60000 + 330) % 1440 ∧ (e / 60000 + 330) % 1440 < 1140))
    ∧ isMarketOpenIST 23400000 = true
    ∧ isMarketOpenIST 12600000 = false
    ∧ isMarketOpenIST 52200000 = false := by
  refine ⟨?_, by decide, by decide, by decide⟩
  intro e
  unfold isMarketOpenIST istMinutesOfDay IST_OFFSET_MINUTES
  simp only [decide_eq_true_eq]
  omega

/-- C2: every instrument satisfies `low ≤ close ≤ high` and `low ≤ open ≤ high`
at initialization from the seed table, the property is preserved by every
`simulateTick` mutation, and hence holds after any sequence of tick cycles. -/
theorem c2_ohlc_invariant :
    (∀ d t : String, ∀ s ∈ instrumentsInit d t, ohlcInvariant s)
    ∧ (∀ (r1 r2 : ℚ) (ts : String) (s : InstrumentState),
        ohlcInvariant s → ohlcInvariant (simulateTick r1 r2 ts s))
    ∧ (∀ (cycles : List (List String × (String → ℚ × ℚ) × String)) (d t : String),
        ∀ s ∈ runTicks cycles (instrumentsInit d t), ohlcInvariant s) := by
  have hinit : ∀ d t : String, ∀ s ∈ instrumentsInit d t, ohlcInvariant s := by
    intro d t s hs
    obtain ⟨b, hb, rfl⟩ := List.mem_map.mp hs
    exact initInstrument_inv d t b hb
  exact ⟨hinit, fun r1 r2 ts s h => simulateTick_preserves_inv r1 r2 ts s h,
    fun cycles d t => runTicks_preserves_inv cycles _ (hinit d t)⟩

/-- C2 witness: the seed AAPL instrument satisfies the invariant, and it still
satisfies it after a concrete tick. -/
theorem c2_witness :
    ohlcInvariant (initInstrument "2026-02-03" "T0"
      ⟨"AAPL", 228.5, 232.4, 227.9, 231.85, 58200000⟩)
    ∧ ohlcInvariant (simulateTick (1/2) (1/3) "T1"
        (initInstrument "2026-02-03" "T0"
          ⟨"AAPL", 228.5, 232.4, 227.9, 231.85, 58200000⟩)) := by
  have h : ohlcInvariant (initInstrument "2026-02-03" "T0"
      ⟨"AAPL", 228.5, 232.4, 227.9, 231.85, 58200000⟩) := by
    refine ⟨?_, ?_, ?_, ?_⟩ <;> norm_num [initInstrument]
  exact ⟨h, c2_ohlc_invariant.2.1 (1/2) (1/3) "T1" _ h⟩

/-- C3 counterexample: for the seed AAPL instrument the formatted quote has
`open ≠ 0` and `day_change = last - open`, yet `day_change_percent` differs
from the exact `day_change / open * 100` because `formatQuote` rounds the
percentage to 4 decimal places (`670/457 = 1.46608...` becomes `1.4661`). -/
theorem c3_counterexample :
    (formatQuote (initInstrument "2026-02-03" "T0"
      ⟨"AAPL", 228.5, 232.4, 227.9, 231.85, 58200000⟩)).open_ ≠ 0
    ∧ (formatQuote (initInstrument "2026-02-03" "T0"
        ⟨"AAPL", 228.5, 232.4, 227.9, 231.85, 58200000⟩)).day_change
      = (formatQuote (initInstrument "2026-02-03" "T0"
          ⟨"AAPL", 228.5, 232.4, 227.9, 231.85, 58200000⟩)).last
        - (formatQuote (initInstrument "2026-02-03" "T0"
            ⟨"AAPL", 228.5, 232.4, 227.9, 231.85, 58200000⟩)).open_
    ∧ (formatQuote (initInstrument "2026-02-03" "T0"
        ⟨"AAPL", 228.5, 232.4, 227.9, 231.85, 58200000⟩)).day_change_percent
      ≠ (formatQuote (initInstrument "2026-02-03" "T0"
          ⟨"AAPL", 228.5, 232.4, 227.9, 231.85, 58200000⟩)).day_change
        / (formatQuote (initInstrument "2026-02-03" "T0"
            ⟨"AAPL", 228.5, 232.4, 227.9, 231.85, 58200000⟩)).open_ * 100 := by
  refine ⟨?_, ?_, ?_⟩ <;> norm_num [formatQuote, initInstrument, round4]

/-- C3 amended: every formatted Quote has `last` equal to the instrument's
close, `day_change` equal to `last - open` rounded to 4 decimal places (hence
exactly `last - open` whenever that difference is a 4-decimal quantity), and
`day_change_percent` equal to `day_change / open * 100` rounded to 4 decimal
places when `open ≠ 0`, and `0` when `open = 0`. -/
theorem c3_quote_fields (s : InstrumentState) :
    (formatQuote s).last = s.close_price
    ∧ (formatQuote s).open_ = s.open_price
    ∧ (formatQuote s).day_change = round4 (s.close_price - s.open_price)
    ∧ (s.open_price = 0 → (formatQuote s).day_change_percent = 0)
    ∧ (s.open_price ≠ 0 →
        (formatQuote s).day_change_percent
          = round4 ((formatQuote s).day_change / s.open_price * 100))
    ∧ (∀ n : ℤ, s.close_price - s.open_price = (n : ℚ) / 10000 →
        (formatQuote s).day_change = s.close_price - s.open_price) := by
  refine ⟨rfl, rfl, rfl, ?_, ?_, ?_⟩
  · intro h
    simp [formatQuote, h]
  · intro h
    simp [formatQuote, h]
  · intro n hn
    show round4 (s.close_price - s.open_price) = _
    rw [hn, round4_int_div]

/-- C3 witness: the amended day-change identity evaluated at the seed AAPL
state, whose `last - open` is the 4-decimal quantity `33500/10000`. -/
theorem c3_witness :
    ((initInstrument "2026-02-03" "T0"
        ⟨"AAPL", 228.5, 232.4, 227.9, 231.85, 58200000⟩).open_price ≠ 0)
    ∧ ((initInstrument "2026-02-03" "T0"
        ⟨"AAPL", 228.5, 232.4, 227.9, 231.85, 58200000⟩).close_price
        - (initInstrument "2026-02-03" "T0"
            ⟨"AAPL", 228.5, 232.4, 227.9, 231.85, 58200000⟩).open_price
        = ((33500 : ℤ) : ℚ) / 10000)
    ∧ (formatQuote (initInstrument "2026-02-03" "T0"
        ⟨"AAPL", 228.5, 232.4, 227.9, 231.85, 58200000⟩)).day_change
      = (initInstrument "2026-02-03" "T0"
          ⟨"AAPL", 228.5, 232.4, 227.9, 231.85, 58200000⟩).close_price
        - (initInstrument "2026-02-03" "T0"
            ⟨"AAPL", 228.5, 232.4, 227.9, 231.85, 58200000⟩).open_price := by
  have h2 : (initInstrument "2026-02-03" "T0"
      ⟨"AAPL", 228.5, 232.4, 227.9, 231.85, 58200000⟩).close_price
      - (initInstrument "2026-02-03" "T0"
          ⟨"AAPL", 228.5, 232.4, 227.9, 231.85, 58200000⟩).open_price
      = ((33500 : ℤ) : ℚ) / 10000 := by
    norm_num [initInstrument]
  refine ⟨by norm_num [initInstrument], h2,
    (c3_quote_fields _).2.2.2.2.2 33500 h2⟩

/-- C10: each open-cycle broadcast consumes exactly one rate-limiter admission
per connection — the meta afterwards is the result of a single
`allowSendRate` step, independent of the batch and the subscription set; when
admitted, the post-window count rises by exactly one however many Quotes are
then sent (including zero), and when denied nothing is sent. -/
theorem c10_one_admission_per_cycle (now : ℕ) (meta : RateMeta)
    (updates : List InstrumentState) (subs : List String) :
    (broadcastToConn now updates subs meta).2 = (allowSendRate now meta).2
    ∧ ((allowSendRate now meta).1 = true →
        (broadcastToConn now updates subs meta).2.sentInWindow
          = (windowRolled now meta).sentInWindow + 1
        ∧ (broadcastToConn now updates subs meta).1
          = (relevantFor subs updates).map formatQuote)
    ∧ ((allowSendRate now meta).1 = false →
        (broadcastToConn now updates subs meta).1 = []) := by
  unfold broadcastToConn allowSendRate
  dsimp only
  split_ifs with h <;> simp_all

/-- C10 witness: at a concrete admitted cycle with an empty batch (zero
matching messages) the admission is still consumed: the window count becomes
`0 + 1` and no Quote is emitted. -/
theorem c10_witness :
    (allowSendRate 5000 ⟨1, 0⟩).1 = true
    ∧ (broadcastToConn 5000 [] [] ⟨1, 0⟩).2.sentInWindow
        = (windowRolled 5000 ⟨1, 0⟩).sentInWindow + 1
    ∧ (broadcastToConn 5000 [] [] ⟨1, 0⟩).1 = ([] : List InstrumentState).map formatQuote := by
  have h := (c10_one_admission_per_cycle 5000 ⟨1, 0⟩ [] []).2.1 (by decide)
  exact ⟨by decide, h.1, h.2⟩

/-- C9: the unsubscribe handler is a no-op on any non-array payload, removes
exactly the listed symbols from the subscription set on an array payload, is
unchanged when no listed symbol is subscribed, and never surfaces an error
(it is a total function on payloads). -/
theorem c9_unsubscribe_behavior (prev : List String) (p : JsVal) :
    (jsIsArray p = false → unsubscribeApply prev p = prev)
    ∧ (∀ xs, p = JsVal.varr xs →
        ∀ s, s ∈ unsubscribeApply prev p ↔ s ∈ prev ∧ s ∉ xs)
    ∧ (∀ xs, p = JsVal.varr xs → (∀ s ∈ xs, s ∉ prev) →
        unsubscribeApply prev p = prev) := by
  refine ⟨?_, ?_, ?_⟩
  · intro h
    unfold unsubscribeApply
    rw [if_pos (Or.inr h)]
  · rintro xs rfl s
    unfold unsubscribeApply
    simp [jsTruthy, jsIsArray]
  · rintro xs rfl hdisj
    unfold unsubscribeApply
    simp only [jsTruthy, jsIsArray, Bool.true_eq_false, or_self, if_false]
    refine List.filter_eq_self.mpr ?_
    intro a ha
    simpa using fun hmem => (hdisj a hmem) ha

/-- C9 witness: unsubscribing `["MSFT"]` while subscribed to
`["AAPL","TSLA"]` leaves the subscription set unchanged, and a non-array
payload is a no-op. -/
theorem c9_witness :
    (∀ s ∈ ["MSFT"], s ∉ ["AAPL", "TSLA"])
    ∧ unsubscribeApply ["AAPL", "TSLA"] (JsVal.varr ["MSFT"]) = ["AAPL", "TSLA"]
    ∧ jsIsArray (JsVal.vstr "MSFT") = false
    ∧ unsubscribeApply ["AAPL", "TSLA"] (JsVal.vstr "MSFT") = ["AAPL", "TSLA"] := by
  refine ⟨by decide, ?_, by decide, ?_⟩
  · exact (c9_unsubscribe_behavior ["AAPL", "TSLA"] _).2.2 ["MSFT"] rfl (by decide)
  · exact (c9_unsubscribe_behavior ["AAPL", "TSLA"] _).1 (by decide)

/-- C6 counterexample: the payload `"AAPL"` (a non-empty string, hence not a
list) does not make the subscription set the full universe — the handler
clears the set and then throws a `TypeError` when it calls `.filter` on the
string, so an error does surface. -/
theorem c6_counterexample :
    subscribeApply ["TSLA"] (JsVal.vstr "AAPL") = ([], Except.error ())
    ∧ subscribeApply ["TSLA"] (JsVal.vstr "AAPL")
      ≠ (instrumentSymbols, Except.ok ()) := by
  constructor
  · rfl
  · intro h
    have h2 : (Except.error () : Except Unit Unit) = Except.ok () := congrArg (·.2) h
    exact Except.noConfusion h2

/-- C6 amended: a falsy or length-zero subscribe payload (absent, null, empty
string, zero, or the empty array) replaces the subscription set with the full
known symbol universe; a non-empty array payload replaces it with exactly the
listed symbols that are in the known universe (unknown symbols silently
dropped, previous subscriptions discarded wholesale); but a truthy non-array
payload whose `length` is not `0` (e.g. a non-empty string, a nonzero number,
or a plain object) clears the set and then raises a `TypeError` from
`symbols.filter`. -/
theorem c6_subscribe_behavior (prev : List String) (p : JsVal) :
    ((jsTruthy p = false ∨ jsLengthIsZero p = true) →
      subscribeApply prev p = (instrumentSymbols, Except.ok ()))
    ∧ (∀ xs, p = JsVal.varr xs → xs ≠ [] →
        ((subscribeApply prev p).2 = Except.ok ()
        ∧ ∀ s, s ∈ (subscribeApply prev p).1 ↔ s ∈ xs ∧ s ∈ instrumentSymbols))
    ∧ ((jsTruthy p = true ∧ jsLengthIsZero p = false ∧ jsIsArray p = false) →
        subscribeApply prev p = ([], Except.error ())) := by
  refine ⟨?_, ?_, ?_⟩
  · intro h
    unfold subscribeApply
    rw [if_pos h]
  · rintro xs rfl hne
    unfold subscribeApply
    rw [if_neg (by simp [jsTruthy, jsLengthIsZero, hne])]
    refine ⟨rfl, ?_⟩
    intro s
    simp [List.mem_filter]
  · rintro ⟨h1, h2, h3⟩
    unfold subscribeApply
    rw [if_neg (by simp [h1, h2])]
    cases p <;> simp_all [jsIsArray]

/-- C6 witness: subscribing with `["AAPL","UNKNOWN"]` succeeds and yields a
set containing exactly the known symbol `AAPL`. -/
theorem c6_witness :
    (JsVal.varr ["AAPL", "UNKNOWN"] = JsVal.varr ["AAPL", "UNKNOWN"])
    ∧ (["AAPL", "UNKNOWN"] ≠ ([] : List String))
    ∧ (subscribeApply ["X"] (JsVal.varr ["AAPL", "UNKNOWN"])).2 = Except.ok ()
    ∧ (∀ s, s ∈ (subscribeApply ["X"] (JsVal.varr ["AAPL", "UNKNOWN"])).1
        ↔ s ∈ ["AAPL", "UNKNOWN"] ∧ s ∈ instrumentSymbols) := by
  have h := (c6_subscribe_behavior ["X"] (JsVal.varr ["AAPL", "UNKNOWN"])).2.1
    ["AAPL", "UNKNOWN"] rfl (by decide)
  exact ⟨rfl, by decide, h.1, h.2⟩

theorem checksRun_const_window (w : ℕ) (hw : 0 < w) :
    ∀ (ts : List ℕ) (c : ℕ), (∀ t ∈ ts, w ≤ t ∧ t ≤ w + 1000) →
      checksRun ⟨w, c⟩ ts
        = (List.range ts.length).map (fun i => decide (c + i < MAX_RATE_PER_SECOND)) := by
  intro ts
  induction ts with
  | nil => intro c _; rfl
  | cons t ts ih =>
    intro c h
    obtain ⟨hle, hub⟩ := h t (List.mem_cons_self t ts)
    have hroll : windowRolled t ⟨w, c⟩ = ⟨w, c⟩ := by
      unfold windowRolled
      rw [if_neg]
      dsimp only
      omega
    have htail := fun t ht => h t (List.mem_cons_of_mem _ ht)
    unfold checksRun allowSendRate
    rw [hroll]
    dsimp only
    simp only [List.length_cons]
    rw [List.range_succ_eq_map, List.map_cons, List.map_map]
    split_ifs with hc
    · rw [ih c htail]
      refine congrArg₂ _ ((decide_eq_false (by omega)).symm) ?_
      refine List.map_congr_left fun i _ => ?_
      simp only [Function.comp_apply]
      exact decide_eq_decide.mpr (by omega)
    · rw [ih (c + 1) htail]
      refine congrArg₂ _ ((decide_eq_true (by omega)).symm) ?_
      refine List.map_congr_left fun i _ => ?_
      simp only [Function.comp_apply]
      exact decide_eq_decide.mpr (by omega)

/-- C5: an admission check at time `t` first resets the window when
`t - window_start` exceeds 1000ms (window_start := t, count := 0) and then
denies iff the count has reached `MAX_RATE_PER_SECOND` (incrementing and
admitting otherwise); consequently, starting at any resetting check and for
any further checks landing inside that 1-second window, exactly the first
`MAX_RATE_PER_SECOND` checks admit and every later check in the window
denies. -/
theorem c5_rate_limiter_window (meta : RateMeta) (t0 : ℕ) (ts : List ℕ)
    (hreset : meta.lastWindowStart = 0 ∨ 1000 < t0 - meta.lastWindowStart)
    (hpos : 0 < t0)
    (hin : ∀ t ∈ ts, t0 ≤ t ∧ t ≤ t0 + 1000) :
    checksRun meta (t0 :: ts)
      = (List.range (ts.length + 1)).map (fun i => decide (i < MAX_RATE_PER_SECOND)) := by
  have hroll : windowRolled t0 meta = ⟨t0, 0⟩ := by
    unfold windowRolled
    rw [if_pos hreset]
  unfold checksRun allowSendRate
  rw [hroll]
  dsimp only
  rw [if_neg (by unfold MAX_RATE_PER_SECOND; omega)]
  rw [checksRun_const_window t0 hpos ts 1 hin]
  rw [List.range_succ_eq_map, List.map_cons, List.map_map]
  refine congrArg₂ _ (by simp [MAX_RATE_PER_SECOND]) ?_
  refine List.map_congr_left fun i _ => ?_
  simp only [Function.comp_apply]
  exact decide_eq_decide.mpr (by omega)

/-- C5 witness: after a reset at t=2000 (the previous window started at 0),
three checks inside the window all admit. -/
theorem c5_witness :
    ((⟨0, 7⟩ : RateMeta).lastWindowStart = 0 ∨ 1000 < 2000 - (⟨0, 7⟩ : RateMeta).lastWindowStart)
    ∧ (0 < 2000)
    ∧ (∀ t ∈ [2100, 2900], 2000 ≤ t ∧ t ≤ 2000 + 1000)
    ∧ checksRun ⟨0, 7⟩ [2000, 2100, 2900]
        = (List.range ([2100, 2900].length + 1)).map (fun i => decide (i < MAX_RATE_PER_SECOND)) := by
  exact ⟨Or.inl rfl, by decide, by decide,
    c5_rate_limiter_window ⟨0, 7⟩ 2000 [2100, 2900] (Or.inl rfl) (by decide) (by decide)⟩

/-- C1: in an open broadcast cycle, for a connection whose rate limiter admits
the send and a batch of mutated instruments with pairwise-distinct symbols,
the connection receives exactly one `update` Quote for each batch instrument
whose symbol is in its subscription set (namely that instrument's formatted
quote), and receives no Quote whose symbol is outside its subscription set. -/
theorem c1_broadcast_filtering (now : ℕ) (updates : List InstrumentState)
    (subs : List String) (meta : RateMeta)
    (hgate : isMarketOpenIST now = true)
    (hadm : (allowSendRate now meta).1 = true)
    (hnodup : (updates.map InstrumentState.symbol).Nodup) :
    (∀ u ∈ updates, u.symbol ∈ subs →
      ((openCycleSend now updates subs meta).1.countP
          (fun q => q.symbol == u.symbol) = 1
        ∧ formatQuote u ∈ (openCycleSend now updates subs meta).1))
    ∧ (∀ q ∈ (openCycleSend now updates subs meta).1, q.symbol ∈ subs) := by
  have hmsgs : (openCycleSend now updates subs meta).1
      = (relevantFor subs updates).map formatQuote := by
    unfold openCycleSend broadcastToConn
    rw [if_pos hgate, if_pos hadm]
  constructor
  · intro u hu husub
    rw [hmsgs]
    constructor
    · rw [List.countP_map]
      unfold relevantFor
      rw [List.countP_filter]
      have hcongr : updates.countP
          (fun v => ((fun q => q.symbol == u.symbol) ∘ formatQuote) v && subs.contains v.symbol)
          = updates.countP (fun v => v.symbol == u.symbol) := by
        refine List.countP_congr fun v _ => ?_
        simp only [Function.comp_apply, formatQuote_symbol, Bool.and_eq_true,
          beq_iff_eq, and_iff_left_iff_imp]
        intro hveq
        rw [hveq]
        exact (contains_iff_mem subs u.symbol).mpr husub
      rw [hcongr]
      have : updates.countP (fun v => v.symbol == u.symbol)
          = (updates.map InstrumentState.symbol).countP (fun a => a == u.symbol) := by
        rw [List.countP_map]
        rfl
      rw [this, ← List.count_eq_countP]
      exact List.count_eq_one_of_mem hnodup (List.mem_map_of_mem _ hu)
    · refine List.mem_map_of_mem formatQuote ?_
      unfold relevantFor
      exact List.mem_filter.mpr ⟨hu, (contains_iff_mem subs u.symbol).mpr husub⟩
  · intro q hq
    rw [hmsgs] at hq
    obtain ⟨v, hv, rfl⟩ := List.mem_map.mp hq
    rw [formatQuote_symbol]
    unfold relevantFor at hv
    exact (contains_iff_mem subs v.symbol).mp (List.mem_filter.mp hv).2

/-- C1 witness: at 12:00 IST, a fresh connection subscribed to TSLA receives
exactly the TSLA quote from a batch mutating TSLA and AAPL. -/
theorem c1_witness :
    isMarketOpenIST 23400000 = true
    ∧ (allowSendRate 23400000 ⟨1, 0⟩).1 = true
    ∧ ([⟨"TSLA", "d", 405.2, 410.1, 404.1, 409.35, 23400000, "t"⟩,
        ⟨"AAPL", "d", 228.5, 232.4, 227.9, 231.85, 58200000, "t"⟩].map
          InstrumentState.symbol).Nodup
    ∧ ((∀ u ∈ [(⟨"TSLA", "d", 405.2, 410.1, 404.1, 409.35, 23400000, "t"⟩ : InstrumentState),
          ⟨"AAPL", "d", 228.5, 232.4, 227.9, 231.85, 58200000, "t"⟩], u.symbol ∈ ["TSLA"] →
        ((openCycleSend 23400000
            [⟨"TSLA", "d", 405.2, 410.1, 404.1, 409.35, 23400000, "t"⟩,
             ⟨"AAPL", "d", 228.5, 232.4, 227.9, 231.85, 58200000, "t"⟩] ["TSLA"] ⟨1, 0⟩).1.countP
            (fun q => q.symbol == u.symbol) = 1
          ∧ formatQuote u ∈ (openCycleSend 23400000
              [⟨"TSLA", "d", 405.2, 410.1, 404.1, 409.35, 23400000, "t"⟩,
               ⟨"AAPL", "d", 228.5, 232.4, 227.9, 231.85, 58200000, "t"⟩] ["TSLA"] ⟨1, 0⟩).1))
      ∧ (∀ q ∈ (openCycleSend 23400000
            [⟨"TSLA", "d", 405.2, 410.1, 404.1, 409.35, 23400000, "t"⟩,
             ⟨"AAPL", "d", 228.5, 232.4, 227.9, 231.85, 58200000, "t"⟩] ["TSLA"] ⟨1, 0⟩).1,
          q.symbol ∈ ["TSLA"])) := by
  refine ⟨by decide, by decide, by decide, ?_⟩
  exact c1_broadcast_filtering 23400000 _ ["TSLA"] ⟨1, 0⟩ (by decide) (by decide) (by decide)

/-- C8: each open cycle picks a batch size in [3,6]; each selected
instrument's new close is the old close times `(1 + delta)` rounded to 4
decimal places with the delta drawn in [-0.4%, +0.4%]; the high rises to the
new close exactly when it exceeds the old high, the low falls to it exactly
when it is below the old low; the volume grows by an integer in
[5000, 25000); the timestamp becomes the generation instant; and instruments
whose symbol is not selected are unchanged (the table keeps its length). -/
theorem c8_tick_generation :
    (∀ r : ℚ, 0 ≤ r → r < 1 → 3 ≤ randCount r ∧ randCount r ≤ 6)
    ∧ (∀ r : ℚ, 0 ≤ r → r < 1 →
        -(4/1000) ≤ randPct r 0.004 ∧ randPct r 0.004 ≤ 4/1000)
    ∧ (∀ r : ℚ, 0 ≤ r → r < 1 → 5000 ≤ volInc r ∧ volInc r < 25000)
    ∧ (∀ (r1 r2 : ℚ) (ts : String) (s : InstrumentState),
        (simulateTick r1 r2 ts s).close_price
            = round4 (s.close_price * (1 + randPct r1 0.004))
        ∧ (s.high_price < round4 (s.close_price * (1 + randPct r1 0.004)) →
            (simulateTick r1 r2 ts s).high_price
              = round4 (s.close_price * (1 + randPct r1 0.004)))
        ∧ (round4 (s.close_price * (1 + randPct r1 0.004)) ≤ s.high_price →
            (simulateTick r1 r2 ts s).high_price = s.high_price)
        ∧ (round4 (s.close_price * (1 + randPct r1 0.004)) < s.low_price →
            (simulateTick r1 r2 ts s).low_price
              = round4 (s.close_price * (1 + randPct r1 0.004)))
        ∧ (s.low_price ≤ round4 (s.close_price * (1 + randPct r1 0.004)) →
            (simulateTick r1 r2 ts s).low_price = s.low_price)
        ∧ (simulateTick r1 r2 ts s).volume = s.volume + volInc r2
        ∧ (simulateTick r1 r2 ts s).ts = ts
        ∧ (simulateTick r1 r2 ts s).symbol = s.symbol
        ∧ (simulateTick r1 r2 ts s).open_price = s.open_price)
    ∧ (∀ sel rnd ts (store : List InstrumentState),
        (tickStore sel rnd ts store).length = store.length)
    ∧ (∀ sel rnd ts (store : List InstrumentState) s,
        s ∈ store → s.symbol ∉ sel → s ∈ tickStore sel rnd ts store) := by
  refine ⟨?_, ?_, ?_, ?_, ?_, ?_⟩
  · intro r h0 h1
    have hf0 : (0 : ℤ) ≤ ⌊r * 4⌋ := Int.le_floor.mpr (by push_cast; nlinarith)
    have hf4 : ⌊r * 4⌋ < 4 := Int.floor_lt.mpr (by push_cast; nlinarith)
    unfold randCount
    omega
  · intro r h0 h1
    unfold randPct
    constructor <;> nlinarith
  · intro r h0 h1
    unfold volInc
    constructor
    · exact Int.le_floor.mpr (by push_cast; nlinarith)
    · exact Int.floor_lt.mpr (by push_cast; nlinarith)
  · intro r1 r2 ts s
    refine ⟨rfl, ?_, ?_, ?_, ?_, rfl, rfl, rfl, rfl⟩
    · intro h
      simp [simulateTick, h]
    · intro h
      simp [simulateTick, not_lt.mpr h]
    · intro h
      simp [simulateTick, h]
    · intro h
      simp [simulateTick, not_lt.mpr h]
  · intro sel rnd ts store
    unfold tickStore
    exact List.length_map store _
  · intro sel rnd ts store s hs hnot
    unfold tickStore
    have heq : (fun u : InstrumentState => if sel.contains u.symbol
        then simulateTick (rnd u.symbol).1 (rnd u.symbol).2 ts u else u) s = s := by
      dsimp only
      rw [if_neg]
      intro hc
      exact hnot ((contains_iff_mem sel s.symbol).mp hc)
    exact heq ▸ List.mem_map_of_mem _ hs

/-- C8 witness: the randomness bounds and the tick field equations evaluated
at concrete draws and a concrete TSLA state. -/
theorem c8_witness :
    (0 ≤ (0 : ℚ)) ∧ ((0 : ℚ) < 1)
    ∧ (3 ≤ randCount 0 ∧ randCount 0 ≤ 6)
    ∧ (5000 ≤ volInc 0 ∧ volInc 0 < 25000)
    ∧ (simulateTick 0 0 "T1"
        ⟨"TSLA", "d", 405.2, 410.1, 404.1, 409.35, 23400000, "t0"⟩).volume
      = (⟨"TSLA", "d", 405.2, 410.1, 404.1, 409.35, 23400000, "t0"⟩ : InstrumentState).volume
        + volInc 0
    ∧ (simulateTick 0 0 "T1"
        ⟨"TSLA", "d", 405.2, 410.1, 404.1, 409.35, 23400000, "t0"⟩).ts = "T1" := by
  have h0 : (0 : ℚ) ≤ 0 := le_refl 0
  have h1 : (0 : ℚ) < 1 := zero_lt_one
  have h4 := c8_tick_generation.2.2.2.1 0 0 "T1"
    ⟨"TSLA", "d", 405.2, 410.1, 404.1, 409.35, 23400000, "t0"⟩
  exact ⟨h0, h1, c8_tick_generation.1 0 h0 h1, c8_tick_generation.2.2.1 0 h0 h1,
    h4.2.2.2.2.2.1, h4.2.2.2.2.2.2.1⟩

theorem allowSendRate_lws (now : ℕ) (m : RateMeta) :
    ((allowSendRate now m).2).lastWindowStart = (windowRolled now m).lastWindowStart := by
  unfold allowSendRate
  dsimp only
  split_ifs <;> rfl

theorem windowRolled_cases (now : ℕ) (m : RateMeta) :
    windowRolled now m = ⟨now, 0⟩ ∨
    (windowRolled now m = m ∧ ¬(m.lastWindowStart = 0 ∨ 1000 < now - m.lastWindowStart)) := by
  unfold windowRolled
  split_ifs with h
  · exact Or.inl rfl
  · exact Or.inr ⟨rfl, h⟩

theorem broadcastToConn_meta_eq (now : ℕ) (ups : List InstrumentState)
    (subs : List String) (m : RateMeta) :
    (broadcastToConn now ups subs m).2 = (allowSendRate now m).2 := by
  unfold broadcastToConn
  dsimp only
  split_ifs <;> rfl

theorem broadcastToConn_msgs_le (now : ℕ) (ups : List InstrumentState)
    (subs : List String) (m : RateMeta) :
    (broadcastToConn now ups subs m).1.length ≤ ups.length := by
  unfold broadcastToConn relevantFor
  dsimp only
  split_ifs
  · rw [List.length_map]
    exact List.length_filter_le _ _
  · simp

theorem runEntries_times (subs : List String) :
    ∀ (cycles : List (ℕ × List InstrumentState)) (meta : RateMeta),
      (runEntries subs meta cycles).map RunEntry.time = cycles.map Prod.fst := by
  intro cycles
  induction cycles with
  | nil => intro meta; rfl
  | cons c cs ih =>
    intro meta
    unfold runEntries
    simp only [List.map_cons, ih]

theorem runEntries_bounds (subs : List String) :
    ∀ (cycles : List (ℕ × List InstrumentState)) (meta : RateMeta),
      0 < meta.lastWindowStart →
      (∀ c ∈ cycles, meta.lastWindowStart ≤ c.1) →
      (∀ c ∈ cycles, c.2.length ≤ 6) →
      cycles.Pairwise (fun a b => a.1 + BROADCAST_INTERVAL_MS ≤ b.1) →
      ∀ e ∈ runEntries subs meta cycles,
        e.ws ≤ e.time ∧ e.time ≤ e.ws + 1000 ∧ e.msgs ≤ 6 := by
  intro cycles
  induction cycles with
  | nil =>
    intro meta _ _ _ _ e he
    exact absurd he (List.not_mem_nil e)
  | cons c cs ih =>
    intro meta hpos hmono hbatch hgap e he
    have hheadle : meta.lastWindowStart ≤ c.1 := hmono c (List.mem_cons_self c cs)
    have hlws : ((broadcastToConn c.1 c.2 subs meta).2).lastWindowStart
        = (windowRolled c.1 meta).lastWindowStart := by
      rw [broadcastToConn_meta_eq, allowSendRate_lws]
    have hgaphead := (List.pairwise_cons.mp hgap).1
    have hgaptail := (List.pairwise_cons.mp hgap).2
    unfold runEntries at he
    rcases List.mem_cons.mp he with rfl | htail
    · refine ⟨?_, ?_, ?_⟩
      · dsimp only
        rw [hlws]
        rcases windowRolled_cases c.1 meta with hr | ⟨hr, _⟩
        · rw [hr]
        · rw [hr]
          exact hheadle
      · dsimp only
        rw [hlws]
        rcases windowRolled_cases c.1 meta with hr | ⟨hr, hno⟩
        · rw [hr]
          dsimp only
          omega
        · rw [hr]
          omega
      · exact le_trans (broadcastToConn_msgs_le c.1 c.2 subs meta)
          (hbatch c (List.mem_cons_self c cs))
    · refine ih (broadcastToConn c.1 c.2 subs meta).2 ?_ ?_ ?_ hgaptail e htail
      · rw [hlws]
        rcases windowRolled_cases c.1 meta with hr | ⟨hr, _⟩
        · rw [hr]
          dsimp only
          omega
        · rw [hr]
          exact hpos
      · intro c' hc'
        rw [hlws]
        have hc'gap : c.1 + BROADCAST_INTERVAL_MS ≤ c'.1 := hgaphead c' hc'
        rcases windowRolled_cases c.1 meta with hr | ⟨hr, _⟩
        · rw [hr]
          dsimp only
          omega
        · rw [hr]
          exact hmono c' (List.mem_cons_of_mem c hc')
      · intro c' hc'
        exact hbatch c' (List.mem_cons_of_mem c hc')

theorem window_entries_le_two (l : List RunEntry) (w : ℕ)
    (hp : l.Pairwise (fun a b => a.time + BROADCAST_INTERVAL_MS ≤ b.time))
    (hall : ∀ e ∈ l, w ≤ e.time ∧ e.time ≤ w + 1000) : l.length ≤ 2 := by
  match l with
  | [] => simp
  | [a] => simp
  | [a, b] => simp
  | a :: b :: c :: rest =>
    exfalso
    have hab : a.time + BROADCAST_INTERVAL_MS ≤ b.time :=
      (List.pairwise_cons.mp hp).1 b (List.mem_cons_self b (c :: rest))
    have hbc : b.time + BROADCAST_INTERVAL_MS ≤ c.time :=
      (List.pairwise_cons.mp (List.pairwise_cons.mp hp).2).1 c (List.mem_cons_self c rest)
    have haw := (hall a (by simp)).1
    have hcw := (hall c (by simp)).2
    unfold BROADCAST_INTERVAL_MS at hab hbc
    omega

theorem sum_msgs_le_twelve (l : List RunEntry)
    (h6 : ∀ e ∈ l, e.msgs ≤ 6) (h2 : l.length ≤ 2) :
    (l.map RunEntry.msgs).sum ≤ 12 := by
  match l with
  | [] => simp
  | [a] =>
    have := h6 a (by simp)
    simp only [List.map_cons, List.map_nil, List.sum_cons, List.sum_nil]
    omega
  | [a, b] =>
    have ha := h6 a (by simp)
    have hb := h6 b (by simp)
    simp only [List.map_cons, List.map_nil, List.sum_cons, List.sum_nil]
    omega
  | a :: b :: c :: rest => simp at h2

/-- C4: along any sequence of open broadcast cycles spaced at least one
broadcast period (800ms) apart, with batches of at most 6 instruments and a
connection whose rate window started no later than the first cycle, the total
number of `update` messages charged to any single rate window (all cycles
sharing the same window start `w`) never exceeds `MAX_RATE_PER_SECOND`:
at most two admissions fit in a 1-second window at 800ms spacing, and each
admission covers at most 6 messages. -/
theorem c4_rate_window_cap (subs : List String) (meta : RateMeta)
    (cycles : List (ℕ × List InstrumentState)) (w : ℕ)
    (hpos : 0 < meta.lastWindowStart)
    (hmono : ∀ c ∈ cycles, meta.lastWindowStart ≤ c.1)
    (hgap : cycles.Pairwise (fun a b => a.1 + BROADCAST_INTERVAL_MS ≤ b.1))
    (hbatch : ∀ c ∈ cycles, c.2.length ≤ 6) :
    (((runEntries subs meta cycles).filter (fun e => e.ws == w)).map RunEntry.msgs).sum
      ≤ MAX_RATE_PER_SECOND := by
  have hbounds := runEntries_bounds subs cycles meta hpos hmono hbatch hgap
  have hpe : (runEntries subs meta cycles).Pairwise
      (fun a b => a.time + BROADCAST_INTERVAL_MS ≤ b.time) := by
    have h1 : ((runEntries subs meta cycles).map RunEntry.time).Pairwise
        (fun a b => a + BROADCAST_INTERVAL_MS ≤ b) := by
      rw [runEntries_times subs cycles meta]
      exact List.pairwise_map.mpr hgap
    exact List.pairwise_map.mp h1
  have hsub := List.filter_sublist (p := fun e => e.ws == w) (runEntries subs meta cycles)
  have hp' := hpe.sublist hsub
  have hall : ∀ e ∈ (runEntries subs meta cycles).filter (fun e => e.ws == w),
      w ≤ e.time ∧ e.time ≤ w + 1000 := by
    intro e he
    obtain ⟨hmem, hws⟩ := List.mem_filter.mp he
    have hw : e.ws = w := by simpa using hws
    have hb := hbounds e hmem
    omega
  have h6 : ∀ e ∈ (runEntries subs meta cycles).filter (fun e => e.ws == w), e.msgs ≤ 6 := by
    intro e he
    exact (hbounds e (List.mem_filter.mp he).1).2.2
  have h2 := window_entries_le_two _ w hp' hall
  have h12 := sum_msgs_le_twelve _ h6 h2
  unfold MAX_RATE_PER_SECOND
  omega

/-- C4 witness: a two-cycle trace 800ms apart, both cycles landing in the
window that starts at t=2000; the message total for that window is within the
cap. -/
theorem c4_witness :
    (0 < (⟨1, 0⟩ : RateMeta).lastWindowStart)
    ∧ (∀ c ∈ [((2000 : ℕ), ([] : List InstrumentState)), (2800, [])],
        (⟨1, 0⟩ : RateMeta).lastWindowStart ≤ c.1)
    ∧ ([((2000 : ℕ), ([] : List InstrumentState)), (2800, [])].Pairwise
        (fun a b => a.1 + BROADCAST_INTERVAL_MS ≤ b.1))
    ∧ (∀ c ∈ [((2000 : ℕ), ([] : List InstrumentState)), (2800, [])], c.2.length ≤ 6)
    ∧ (((runEntries ["AAPL"] ⟨1, 0⟩
          [((2000 : ℕ), ([] : List InstrumentState)), (2800, [])]).filter
            (fun e => e.ws == 2000)).map RunEntry.msgs).sum ≤ MAX_RATE_PER_SECOND := by
  refine ⟨by decide, by decide, ?_, by decide, ?_⟩
  · refine List.Pairwise.cons ?_ ?_
    · intro b hb
      rcases List.mem_cons.mp hb with rfl | hb'
      · decide
      · exact absurd hb' (List.not_mem_nil b)
    · exact List.pairwise_singleton _ _
  · refine c4_rate_window_cap ["AAPL"] ⟨1, 0⟩ _ 2000 (by decide) (by decide) ?_ (by decide)
    refine List.Pairwise.cons ?_ ?_
    · intro b hb
      rcases List.mem_cons.mp hb with rfl | hb'
      · decide
      · exact absurd hb' (List.not_mem_nil b)
    · exact List.pairwise_singleton _ _

end WsOhlc
